import Mathlib

/-!
# Verification of the `samlsp` metadata subsystem

A shallow embedding, in Lean 4, of the metadata parser/fetcher and the
multi-tenant service-provider registry of the `insaplace/saml` repository
(`samlsp/fetch_metadata.go` and the `ServiceMultipleProvider` file of the
`saml` package).

Modelling conventions:
* Go errors are strings (the Go code compares and produces errors purely by
  message, e.g. the `encoding/xml` shape-mismatch message); fallible Go
  functions become `Except String α`.
* The byte input of the parsers is modelled by `XmlDoc`, an abstraction of
  the outcomes of `xrv.Validate` and `encoding/xml.Unmarshal` on the raw
  bytes: a document is either malformed, a well-formed document whose root
  element is `EntityDescriptor` (and decodes to one), a well-formed document
  whose root element is `EntitiesDescriptor` (and decodes to one), or a
  well-formed document failing to decode for another reason.
* The HTTP exchange of `fetchMetadata` is modelled by `HTTPResult`, the
  outcome of `httpClient.Do` plus the body read.
* `time.Time` and `time.Duration` are modelled as `Int` (nanoseconds); the
  package variable `TimeNow` becomes an explicit `now` argument.
* `net/url` is modelled for absolute `scheme://host/path?query` URLs: the
  struct `URL`, `parseURL`, `Values` (`Query`, `Add`, `Encode` with its
  alphabetical key sort and `QueryEscape` percent-encoding) follow the Go
  standard library behaviour on such URLs with ASCII content.
-/

/-! ## Go `net/url` model -/

/-- Model of Go `net/url.URL` restricted to the components this code uses:
scheme, host, path and raw query. -/
structure URL where
  scheme : String
  host : String
  path : String
  rawQuery : String
deriving DecidableEq, Repr

/-- Model of Go `(*url.URL).String()` for an absolute URL: the `?` is
written exactly when the raw query is non-empty. -/
def URL.toString (u : URL) : String :=
  u.scheme ++ "://" ++ u.host ++ u.path ++
    (if u.rawQuery = "" then "" else "?" ++ u.rawQuery)

/-- Splits a character list at the first occurrence of `:` followed by `//`,
returning the scheme characters and the remainder, as Go `url.Parse` does
for absolute URLs. -/
def splitScheme : List Char → Option (List Char × List Char)
  | [] => none
  | ':' :: '/' :: '/' :: rest => some ([], rest)
  | c :: rest =>
    match splitScheme rest with
    | some (sch, r) => some (c :: sch, r)
    | none => none

/-- Go scheme validity: a letter followed by letters, digits, `+`, `-`, `.`. -/
def validScheme : List Char → Bool
  | [] => false
  | c :: rest => c.isAlpha && rest.all fun d => d.isAlphanum || d = '+' || d = '-' || d = '.'

/-- Model of Go `url.Parse` on absolute `scheme://host[path][?query]` URLs
(the only shape this code feeds it): host runs to the first `/`, path to the
first `?`, the raw query is the rest.  Strings outside this grammar are
parse errors in the model. -/
def parseURL (s : String) : Except String URL :=
  match splitScheme s.toList with
  | none => Except.error ("parse \"" ++ s ++ "\": invalid URI for request")
  | some (sch, rest) =>
    if validScheme sch then
      let host := rest.takeWhile fun c => c ≠ '/' && c ≠ '?'
      let afterHost := rest.dropWhile fun c => c ≠ '/' && c ≠ '?'
      let path := afterHost.takeWhile fun c => c ≠ '?'
      let query := (afterHost.dropWhile fun c => c ≠ '?').drop 1
      Except.ok ⟨String.mk sch, String.mk host, String.mk path, String.mk query⟩
    else
      Except.error ("parse \"" ++ s ++ "\": missing protocol scheme")

/-- Go `url.shouldEscape` for query components: letters, digits and
`-`, `_`, `.`, `~` stay unescaped. -/
def shouldEscapeQuery (c : Char) : Bool :=
  !(c.isAlphanum || c = '-' || c = '_' || c = '.' || c = '~')

/-- Uppercase hexadecimal digit, as Go `url` escaping emits. -/
def hexDigit (n : Nat) : Char :=
  "0123456789ABCDEF".toList.getD n '0'

/-- Per-character query escaping of Go `url.QueryEscape`: space becomes `+`,
other escaped characters become `%XX`. -/
def escapeChar (c : Char) : List Char :=
  if shouldEscapeQuery c then
    if c = ' ' then ['+']
    else ['%', hexDigit (c.toNat / 16), hexDigit (c.toNat % 16)]
  else [c]

/-- Model of Go `url.QueryEscape` (for ASCII content, where a character is
one byte). -/
def queryEscape (s : String) : String :=
  String.mk (s.toList.flatMap escapeChar)

/-- Decodes one `%XX`/`+` escape step of Go `url.QueryUnescape`; `none` on a
malformed escape. -/
def hexVal (c : Char) : Option Nat :=
  if c.isDigit then some (c.toNat - '0'.toNat)
  else if 'a' ≤ c ∧ c ≤ 'f' then some (c.toNat - 'a'.toNat + 10)
  else if 'A' ≤ c ∧ c ≤ 'F' then some (c.toNat - 'A'.toNat + 10)
  else none

/-- Model of Go `url.QueryUnescape` on a character list. -/
def unescapeChars : List Char → Option (List Char)
  | [] => some []
  | '%' :: h :: l :: rest => do
    let hi ← hexVal h
    let lo ← hexVal l
    let tail ← unescapeChars rest
    pure (Char.ofNat (hi * 16 + lo) :: tail)
  | '%' :: _ => none
  | '+' :: rest => do pure (' ' :: (← unescapeChars rest))
  | c :: rest => do pure (c :: (← unescapeChars rest))

/-- Model of Go `url.QueryUnescape`. -/
def queryUnescape (s : String) : Option String :=
  (unescapeChars s.toList).map String.mk

/-- Model of Go `url.Values`: an association from keys to value lists; keys
are kept unique by construction (`Values.add`, `parseQueryValues`). -/
def Values : Type := List (String × List String)

/-- Model of Go `url.Values.Add`: append the value to the key's list,
creating the key if absent. -/
def Values.add : Values → String → String → Values
  | [], k, v => [(k, [v])]
  | (k0, vs0) :: rest, k, v =>
    if k0 = k then (k0, vs0 ++ [v]) :: rest
    else (k0, vs0) :: Values.add rest k v

/-- Splits a query segment at its first `=` (Go `strings.Cut`). -/
def cutEq : List Char → List Char × List Char
  | [] => ([], [])
  | '=' :: rest => ([], rest)
  | c :: rest =>
    let (k, v) := cutEq rest
    (c :: k, v)

/-- Model of Go `url.ParseQuery` as used through `(*url.URL).Query()`:
segments split on `&`; empty segments, segments containing `;` and segments
with a malformed escape are dropped (`Query()` ignores the error and keeps
the pairs parsed successfully). -/
def parseQueryValues (raw : String) : Values :=
  (raw.toList.splitOn '&').foldl
    (fun acc seg =>
      if seg = [] then acc
      else if seg.contains ';' then acc
      else
        let (k, v) := cutEq seg
        match queryUnescape (String.mk k), queryUnescape (String.mk v) with
        | some k2, some v2 => Values.add acc k2 v2
        | _, _ => acc)
    []

/-- Byte-wise lexicographic character-list comparison: the string order of
Go `sort.Strings` (identical to character order on ASCII content). -/
def charListLt : List Char → List Char → Bool
  | [], [] => false
  | [], _ :: _ => true
  | _ :: _, [] => false
  | a :: as, b :: bs =>
    if a.toNat < b.toNat then true
    else if b.toNat < a.toNat then false
    else charListLt as bs

/-- Go's string order, on the model's strings. -/
def stringLt (a b : String) : Bool := charListLt a.toList b.toList

/-- Insertion into a key-sorted association list, by Go's byte-wise string
order (`sort.Strings` within `Values.Encode`). -/
def insertPair (p : String × List String) : Values → Values
  | [] => [p]
  | q :: rest =>
    if stringLt p.1 q.1 then p :: q :: rest else q :: insertPair p rest

/-- Key sort performed by Go `url.Values.Encode`. -/
def sortValues : Values → Values
  | [] => []
  | p :: rest => insertPair p (sortValues rest)

/-- Writes `k=v` pairs joined with `&`, both sides query-escaped, as the
encode loop of Go `url.Values.Encode` does. -/
def encodePairs : List (String × String) → String
  | [] => ""
  | [(k, v)] => queryEscape k ++ "=" ++ queryEscape v
  | (k, v) :: rest => queryEscape k ++ "=" ++ queryEscape v ++ "&" ++ encodePairs rest

/-- Model of Go `url.Values.Encode`: keys sorted alphabetically, each value
written in order under its key. -/
def Values.encode (vs : Values) : String :=
  encodePairs (((sortValues vs).map fun p => p.2.map fun v => (p.1, v)).flatten)

/-! ## SAML metadata data model

The element structs live in the `saml` package root of the repository, whose
file is not part of the excerpt; their shapes are modelled from the spec's
data model (§3, §6) and from the composite literals of
`ServiceMultipleProvider.Metadata`, which exhibit the fields used. -/

/-- Modelled from the spec: `Endpoint` — a binding identifier, a location
URL and a response location. -/
structure Endpoint where
  Binding : String
  Location : String
  ResponseLocation : String
deriving DecidableEq, Repr

/-- Modelled from the spec: `IndexedEndpoint` — an endpoint with a small
positive integer priority index. -/
structure IndexedEndpoint where
  Binding : String
  Location : String
  Index : Int
deriving DecidableEq, Repr

/-- Modelled from the spec: a base64 `X509Certificate` blob. -/
structure X509Certificate where
  Data : String
deriving DecidableEq, Repr

/-- Modelled from the spec: the `X509Data` element holding certificate
blobs. -/
structure X509Data where
  X509Certificates : List X509Certificate
deriving DecidableEq, Repr

/-- Modelled from the spec: the `KeyInfo` wrapper element. -/
structure KeyInfo where
  X509Data : X509Data
deriving DecidableEq, Repr

/-- Modelled from the spec: an `EncryptionMethod` element carrying an
algorithm URI. -/
structure EncryptionMethod where
  Algorithm : String
deriving DecidableEq, Repr

/-- Modelled from the spec: `KeyDescriptor` — a usage tag paired with
certificate material and, for encryption, supported algorithm URIs. -/
structure KeyDescriptor where
  Use : String
  KeyInfo : KeyInfo
  EncryptionMethods : List EncryptionMethod
deriving DecidableEq, Repr

/-- Modelled from the spec and the `Metadata` composite literal:
the common role-descriptor fields set by this code. -/
structure RoleDescriptor where
  ProtocolSupportEnumeration : String
  KeyDescriptors : List KeyDescriptor
  ValidUntil : Option Int
deriving DecidableEq, Repr

/-- Modelled from the spec and the `Metadata` composite literal: the
`SSODescriptor` fields set by this code. -/
structure SSODescriptor where
  RoleDescriptor : RoleDescriptor
  SingleLogoutServices : List Endpoint
  NameIDFormats : List String
deriving DecidableEq, Repr

/-- Modelled from the spec and the `Metadata` composite literal: an SP role
descriptor. `AuthnRequestsSigned` and `WantAssertionsSigned` are `*bool` in
Go, hence `Option Bool`. -/
structure SPSSODescriptor where
  SSODescriptor : SSODescriptor
  AuthnRequestsSigned : Option Bool
  WantAssertionsSigned : Option Bool
  AssertionConsumerServices : List IndexedEndpoint
deriving DecidableEq, Repr

/-- Modelled from the spec: an IDP role descriptor; only its presence
matters to this code, its single-sign-on endpoint list stands for its
content. -/
structure IDPSSODescriptor where
  SingleSignOnServices : List Endpoint
deriving DecidableEq, Repr

/-- Modelled from the spec: `EntityDescriptor` — one federation
participant: entity identifier, validity timestamp, IDP and SP role
descriptors. -/
structure EntityDescriptor where
  EntityID : String
  ValidUntil : Int
  IDPSSODescriptors : List IDPSSODescriptor
  SPSSODescriptors : List SPSSODescriptor
deriving DecidableEq, Repr

/-- Modelled from the spec: `EntitiesDescriptor` — an ordered sequence of
`EntityDescriptor` values, with the optional `Name` attribute (a `*string`
in Go) that the WAYF redirector reads. The zero value has `Name = none` and
an empty list. -/
structure EntitiesDescriptor where
  Name : Option String
  EntityDescriptors : List EntityDescriptor
deriving DecidableEq, Repr

/-! ## XML decoding model

`ParseMetadata` relies on `xrv.Validate` and `encoding/xml.Unmarshal`.
An input byte stream is abstracted by the outcomes those calls can have on
it. `encoding/xml`, unmarshalling into a struct whose `XMLName` expects a
given root element, fails with the message
`expected element type <X> but have <Y>` when the root element differs —
the exact message the Go code compares against. -/

/-- Abstraction of an input byte stream by its validation/decode outcomes:
`malformed` fails `xrv.Validate` with the given message; `entityRoot` is
well-formed with root element `EntityDescriptor` decoding to the given
entity; `entitiesRoot` is well-formed with root element
`EntitiesDescriptor` decoding to the given list document; `otherBad` is
well-formed but fails `encoding/xml` decoding in either shape with the
given message. -/
inductive XmlDoc where
  | malformed (msg : String)
  | entityRoot (e : EntityDescriptor)
  | entitiesRoot (es : EntitiesDescriptor)
  | otherBad (msg : String)
deriving DecidableEq, Repr

/-- The `encoding/xml` message `ParseMetadata` compares against. -/
def entityMismatchMsg : String :=
  "expected element type <EntityDescriptor> but have <EntitiesDescriptor>"

/-- The `encoding/xml` message `ParseEntitiesMetadata` compares against. -/
def entitiesMismatchMsg : String :=
  "expected element type <EntitiesDescriptor> but have <EntityDescriptor>"

/-- Model of `xrv.Validate` (the well-formedness/XXE pre-check): fails
exactly on malformed documents. -/
def xrvValidate : XmlDoc → Except String Unit
  | XmlDoc.malformed m => Except.error m
  | _ => Except.ok ()

/-- Model of `xml.Unmarshal(data, &EntityDescriptor{})`: succeeds on a
singular-root document, reports the root-element mismatch on a plural-root
document, propagates any other failure. -/
def unmarshalEntity : XmlDoc → Except String EntityDescriptor
  | XmlDoc.malformed m => Except.error m
  | XmlDoc.entityRoot e => Except.ok e
  | XmlDoc.entitiesRoot _ => Except.error entityMismatchMsg
  | XmlDoc.otherBad m => Except.error m

/-- Model of `xml.Unmarshal(data, &EntitiesDescriptor{})`: the mirror of
`unmarshalEntity`. -/
def unmarshalEntities : XmlDoc → Except String EntitiesDescriptor
  | XmlDoc.malformed m => Except.error m
  | XmlDoc.entityRoot _ => Except.error entitiesMismatchMsg
  | XmlDoc.entitiesRoot es => Except.ok es
  | XmlDoc.otherBad m => Except.error m

/-- The scan loop of `ParseMetadata` over `entities.EntityDescriptors`:
first entity with a non-empty `IDPSSODescriptors` slice, else the NotFound
error. -/
def findIDPEntity : List EntityDescriptor → Except String EntityDescriptor
  | [] => Except.error "no entity found with IDPSSODescriptor"
  | e :: rest =>
    if 0 < e.IDPSSODescriptors.length then Except.ok e else findIDPEntity rest

/-- `ParseMetadata` (samlsp/fetch_metadata.go): validate, decode as a single
`EntityDescriptor`, and on the specific plural-root mismatch fall back to
`EntitiesDescriptor` and scan for an entity with an IDP role descriptor. -/
def ParseMetadata (data : XmlDoc) : Except String EntityDescriptor :=
  match xrvValidate data with
  | Except.error m => Except.error m
  | Except.ok _ =>
    match unmarshalEntity data with
    | Except.ok entity => Except.ok entity
    | Except.error err =>
      if err = entityMismatchMsg then
        match unmarshalEntities data with
        | Except.error m => Except.error m
        | Except.ok entities => findIDPEntity entities.EntityDescriptors
      else Except.error err

/-- `ParseEntitiesMetadata` (samlsp/fetch_metadata.go): validate, decode as
`EntitiesDescriptor`, and on the symmetric singular-root mismatch fall back
to a single `EntityDescriptor` wrapped into the zero-valued
`EntitiesDescriptor`. -/
def ParseEntitiesMetadata (data : XmlDoc) : Except String EntitiesDescriptor :=
  match xrvValidate data with
  | Except.error m => Except.error m
  | Except.ok _ =>
    match unmarshalEntities data with
    | Except.ok entities => Except.ok entities
    | Except.error err =>
      if err = entitiesMismatchMsg then
        match unmarshalEntity data with
        | Except.error m => Except.error m
        | Except.ok entity => Except.ok { Name := none, EntityDescriptors := [entity] }
      else Except.error err

/-! ## Fetcher model -/

/-- Outcome of the HTTP exchange in `fetchMetadata`: either
`httpClient.Do` fails, or a response arrives with a status code and a body
read that yields a document or fails. -/
inductive HTTPResult where
  | transportError (msg : String)
  | response (statusCode : Nat) (body : Except String XmlDoc)
deriving Repr

/-- `fetchMetadata` (samlsp/fetch_metadata.go), generic over the parse
operation: transport errors propagate; a status code of 400 or greater is a
fatal retrieval error carrying the code; otherwise the body is read and
handed to the parse operation. -/
def fetchMetadata (R : Type) (resp : HTTPResult) (f : XmlDoc → Except String R) :
    Except String R :=
  match resp with
  | HTTPResult.transportError m => Except.error m
  | HTTPResult.response code body =>
    if 400 ≤ code then
      Except.error ("failed to fetch metadata: unexpected status code " ++ toString code)
    else
      match body with
      | Except.error m => Except.error m
      | Except.ok data => f data

/-- `FetchEntityMetatada`: fetch and parse as a single entity. -/
def FetchEntityMetatada (resp : HTTPResult) : Except String EntityDescriptor :=
  fetchMetadata EntityDescriptor resp ParseMetadata

/-- `FetchEntitiesMetadata`: fetch and parse as an entities document. -/
def FetchEntitiesMetadata (resp : HTTPResult) : Except String EntitiesDescriptor :=
  fetchMetadata EntitiesDescriptor resp ParseEntitiesMetadata

/-! ## Service-provider registry model

`ServiceMultipleProvider` lives in the `saml` package root.  Fields the
modelled operations never read (the signer, the HTTP client, the
IDP-initiated options, the signature verifier, ...) are omitted.  An
`x509.Certificate` is reduced to its `Raw` DER bytes, the only field this
code reads. -/

/-- Model of `x509.Certificate`: the raw DER bytes (`Raw`), each a byte
value. -/
structure Certificate where
  Raw : List Nat
deriving DecidableEq, Repr

/-- Modelled from the spec: the per-tenant `ServiceProvider` record — the
registry operations only store and return it, so only representative
configuration fields are carried. -/
structure ServiceProvider where
  EntityID : String
  MetadataURL : URL
  AcsURL : URL
  SloURL : URL
  SignatureMethod : String
  LogoutBindings : List String
deriving DecidableEq, Repr

/-- `ServiceMultipleProvider`: the multi-tenant registry. `Providers` is the
Go map modelled as an association list with unique keys; `IDPMetadata` is a
pointer, hence `Option`; durations and times are nanosecond counts. -/
structure ServiceMultipleProvider where
  EntityID : String
  Providers : List (String × ServiceProvider)
  Intermediates : List Certificate
  Certificate : Option Certificate
  MetadataURL : URL
  AcsURL : URL
  SloURL : URL
  IDPMetadata : Option EntitiesDescriptor
  AuthnNameIDFormat : String
  MetadataValidDuration : Int
  SignatureMethod : String
  LogoutBindings : List String

/-- `GetServiceProvider`: exact-match lookup in the `Providers` map, failing
with the NotFound message naming the identifier. -/
def GetServiceProvider (smp : ServiceMultipleProvider) (entityID : String) :
    Except String ServiceProvider :=
  match smp.Providers.lookup entityID with
  | some sp => Except.ok sp
  | none => Except.error ("no service provider found for entityID " ++ entityID)

/-- `MakeWayfRedirectionRequest`: parse the return URL, append the `rs`
parameter, read the discovery base from `smp.IDPMetadata.Name`, and append
the `return` and `entityID` parameters to it.  The Go code dereferences
`smp.IDPMetadata` unconditionally; a `nil` registry pointer is a runtime
panic, modelled by `none` in the outer `Option`. -/
def MakeWayfRedirectionRequest (smp : ServiceMultipleProvider)
    (relayState returnUrl : String) : Option (Except String URL) :=
  match parseURL returnUrl with
  | Except.error m => some (Except.error m)
  | Except.ok u =>
    let query := Values.add (parseQueryValues u.rawQuery) "rs" relayState
    let u2 : URL := { u with rawQuery := query.encode }
    match smp.IDPMetadata with
    | none => none
    | some meta =>
      match meta.Name with
      | none => some (Except.error "identity name is not set")
      | some wayfUrl =>
        match parseURL wayfUrl with
        | Except.error m => some (Except.error m)
        | Except.ok wu =>
          let q2 := Values.add (Values.add (parseQueryValues wu.rawQuery)
            "return" u2.toString) "entityID" smp.EntityID
          some (Except.ok { wu with rawQuery := q2.encode })

/-- Modelled from the spec: the fixed default validity-window constant
(48 hours in nanoseconds). -/
def DefaultValidDuration : Int := 2 * 24 * 60 * 60 * 1000000000

/-- Modelled from the spec: the entity identifier falls back from the
configured identifier to the metadata URL — first non-empty string wins. -/
def firstSet (a b : String) : String :=
  if a = "" then b else a

/-- Modelled from the spec: the POST transport binding identifier. -/
def HTTPPostBinding : String := "urn:oasis:names:tc:SAML:2.0:bindings:HTTP-POST"

/-- Modelled from the spec: the Artifact transport binding identifier. -/
def HTTPArtifactBinding : String := "urn:oasis:names:tc:SAML:2.0:bindings:HTTP-Artifact"

/-- Model of Go `encoding/base64` standard encoding of a byte list, three
bytes to four alphabet characters with `=` padding. -/
def base64EncodeBytes : List Nat → List Char
  | [] => []
  | [b1] =>
    ["ABCDEFGHIJKLMNOPQRSTUVWXYZabcdefghijklmnopqrstuvwxyz0123456789+/".toList.getD (b1 / 4) 'A',
     "ABCDEFGHIJKLMNOPQRSTUVWXYZabcdefghijklmnopqrstuvwxyz0123456789+/".toList.getD (b1 % 4 * 16) 'A',
     '=', '=']
  | [b1, b2] =>
    ["ABCDEFGHIJKLMNOPQRSTUVWXYZabcdefghijklmnopqrstuvwxyz0123456789+/".toList.getD (b1 / 4) 'A',
     "ABCDEFGHIJKLMNOPQRSTUVWXYZabcdefghijklmnopqrstuvwxyz0123456789+/".toList.getD (b1 % 4 * 16 + b2 / 16) 'A',
     "ABCDEFGHIJKLMNOPQRSTUVWXYZabcdefghijklmnopqrstuvwxyz0123456789+/".toList.getD (b2 % 16 * 4) 'A',
     '=']
  | b1 :: b2 :: b3 :: rest =>
    ["ABCDEFGHIJKLMNOPQRSTUVWXYZabcdefghijklmnopqrstuvwxyz0123456789+/".toList.getD (b1 / 4) 'A',
     "ABCDEFGHIJKLMNOPQRSTUVWXYZabcdefghijklmnopqrstuvwxyz0123456789+/".toList.getD (b1 % 4 * 16 + b2 / 16) 'A',
     "ABCDEFGHIJKLMNOPQRSTUVWXYZabcdefghijklmnopqrstuvwxyz0123456789+/".toList.getD (b2 % 16 * 4 + b3 / 64) 'A',
     "ABCDEFGHIJKLMNOPQRSTUVWXYZabcdefghijklmnopqrstuvwxyz0123456789+/".toList.getD (b3 % 64) 'A'] ++
    base64EncodeBytes rest

/-- Model of Go `base64.StdEncoding.EncodeToString`. -/
def base64Encode (bs : List Nat) : String :=
  String.mk (base64EncodeBytes bs)

/-- `ServiceMultipleProvider.Metadata`: composes the tenant's publishable
`EntityDescriptor`.  `TimeNow()` is the explicit `now` argument. -/
def Metadata (smp : ServiceMultipleProvider) (now : Int) : EntityDescriptor :=
  let validDuration :=
    if 0 < smp.MetadataValidDuration then smp.MetadataValidDuration
    else DefaultValidDuration
  let authnRequestsSigned := 0 < smp.SignatureMethod.length
  let wantAssertionsSigned := true
  let validUntil := now + validDuration
  let keyDescriptors : List KeyDescriptor :=
    match smp.Certificate with
    | none => []
    | some cert =>
      let certBytes := smp.Intermediates.foldl (fun acc c => acc ++ c.Raw) cert.Raw
      let base : List KeyDescriptor :=
        [{ Use := "encryption",
           KeyInfo :=
             { X509Data :=
               { X509Certificates := [{ Data := base64Encode certBytes }] } },
           EncryptionMethods :=
             [{ Algorithm := "http://www.w3.org/2001/04/xmlenc#aes128-cbc" },
              { Algorithm := "http://www.w3.org/2001/04/xmlenc#aes192-cbc" },
              { Algorithm := "http://www.w3.org/2001/04/xmlenc#aes256-cbc" },
              { Algorithm := "http://www.w3.org/2001/04/xmlenc#rsa-oaep-mgf1p" }] }]
      if 0 < smp.SignatureMethod.length then
        base ++ [{ Use := "signing",
                   KeyInfo :=
                     { X509Data :=
                       { X509Certificates := [{ Data := base64Encode certBytes }] } },
                   EncryptionMethods := [] }]
      else base
  let sloEndpoints : List Endpoint :=
    smp.LogoutBindings.map fun binding =>
      { Binding := binding,
        Location := smp.SloURL.toString,
        ResponseLocation := smp.SloURL.toString }
  { EntityID := firstSet smp.EntityID smp.MetadataURL.toString,
    ValidUntil := validUntil,
    IDPSSODescriptors := [],
    SPSSODescriptors :=
      [{ SSODescriptor :=
           { RoleDescriptor :=
               { ProtocolSupportEnumeration := "urn:oasis:names:tc:SAML:2.0:protocol",
                 KeyDescriptors := keyDescriptors,
                 ValidUntil := some validUntil },
             SingleLogoutServices := sloEndpoints,
             NameIDFormats := [smp.AuthnNameIDFormat] },
         AuthnRequestsSigned := some authnRequestsSigned,
         WantAssertionsSigned := some wantAssertionsSigned,
         AssertionConsumerServices :=
           [{ Binding := HTTPPostBinding, Location := smp.AcsURL.toString, Index := 1 },
            { Binding := HTTPArtifactBinding, Location := smp.AcsURL.toString, Index := 2 }] }] }

/-! ## Fixture configurations

Concrete values used to exercise the operations on the inputs the spec's
testable properties name. -/

/-- The zero value of `url.URL`, for fixture configurations. -/
def zeroURL : URL := { scheme := "", host := "", path := "", rawQuery := "" }

/-- A sample tenant configuration registered under `urn:a`. -/
def spFixture : ServiceProvider :=
  { EntityID := "urn:a", MetadataURL := zeroURL, AcsURL := zeroURL,
    SloURL := zeroURL, SignatureMethod := "", LogoutBindings := [] }

/-- A sample registry: one tenant under `urn:a`, entity identifier
`urn:tenant`, and a discovery base URL configured in the IDP metadata. -/
def smpFixture : ServiceMultipleProvider :=
  { EntityID := "urn:tenant",
    Providers := [("urn:a", spFixture)],
    Intermediates := [],
    Certificate := none,
    MetadataURL := zeroURL, AcsURL := zeroURL, SloURL := zeroURL,
    IDPMetadata := some { Name := some "https://idp.example/wayf", EntityDescriptors := [] },
    AuthnNameIDFormat := "", MetadataValidDuration := 0,
    SignatureMethod := "", LogoutBindings := [] }

/-- The sample registry with no IDP metadata configured (a `nil` pointer in
Go). -/
def smpNoIdp : ServiceMultipleProvider := { smpFixture with IDPMetadata := none }

/-! ## Helper lemmas -/

/-- The scan loop of `ParseMetadata` agrees with a first-match search for a
non-empty IDP role-descriptor list. -/
theorem findIDPEntity_eq_find (l : List EntityDescriptor) :
    findIDPEntity l =
      match l.find? (fun e => !e.IDPSSODescriptors.isEmpty) with
      | some e => Except.ok e
      | none => Except.error "no entity found with IDPSSODescriptor" := by
  induction l with
  | nil => rfl
  | cons e rest ih =>
    cases hl : e.IDPSSODescriptors with
    | nil => simp [findIDPEntity, hl, List.find?, ih]
    | cons a as => simp [findIDPEntity, hl, List.find?]

/-- A string has positive length exactly when it is non-empty. -/
theorem string_pos_ne (s : String) : (0 < s.length) ↔ s ≠ "" := by
  cases s with
  | mk data =>
    cases data with
    | nil => simp [String.length]
    | cons c cs => simp [String.length, String.ext_iff]

/-- The certificate-bytes accumulation loop of `Metadata` equals the
leaf-then-intermediates concatenation. -/
theorem foldl_append_raw (certs : List Certificate) (init : List Nat) :
    certs.foldl (fun acc c => acc ++ c.Raw) init =
      init ++ (certs.map Certificate.Raw).flatten := by
  induction certs generalizing init with
  | nil => simp
  | cons c rest ih => simp [List.foldl_cons, ih]

/-- String append is associative. -/
theorem stringAppend_assoc (a b c : String) : a ++ b ++ c = a ++ (b ++ c) :=
  String.ext (by simp [String.data_append])

/-- An empty raw query parses to no values. -/
theorem parseQueryValues_empty : parseQueryValues "" = [] := rfl

/-- Encoding a sole `rs` parameter. -/
theorem encode_add_rs (r : String) :
    Values.encode (Values.add (parseQueryValues "") "rs" r) =
      "rs=" ++ queryEscape r := rfl

/-- Encoding `return` then `entityID` emits them in alphabetical key order:
`entityID` first. -/
theorem encode_return_entityID (r e : String) :
    Values.encode (Values.add (Values.add (parseQueryValues "") "return" r) "entityID" e) =
      "entityID=" ++ queryEscape e ++ "&return=" ++ queryEscape r := by
  show "entityID=" ++ queryEscape e ++ "&" ++ ("return=" ++ queryEscape r) = _
  rw [← stringAppend_assoc ("entityID=" ++ queryEscape e ++ "&") "return=" (queryEscape r),
      stringAppend_assoc ("entityID=" ++ queryEscape e) "&" "return="]
  rfl

/-! ## Claim theorems -/

/-- C1: when decoding as a single `EntityDescriptor` fails because the root
element is `EntitiesDescriptor`, `ParseMetadata` falls back to decoding an
`EntitiesDescriptor` and returns the first entity, in document order, whose
IDP role-descriptor list is non-empty; with no such entity it fails with the
NotFound condition. -/
theorem parseMetadata_plural_root (es : EntitiesDescriptor) :
    ParseMetadata (XmlDoc.entitiesRoot es) =
      match es.EntityDescriptors.find? (fun e => !e.IDPSSODescriptors.isEmpty) with
      | some e => Except.ok e
      | none => Except.error "no entity found with IDPSSODescriptor" := by
  rw [← findIDPEntity_eq_find]
  rfl

/-- C2: on an input that decodes as a standalone `EntityDescriptor`,
`ParseEntitiesMetadata` succeeds with an `EntitiesDescriptor` whose entity
list contains exactly that one entity. -/
theorem parseEntities_singular_root (e : EntityDescriptor) :
    ParseEntitiesMetadata (XmlDoc.entityRoot e) =
      Except.ok { Name := none, EntityDescriptors := [e] } := rfl

/-- C3: any response with status code 400 or greater makes `fetchMetadata`
(and hence `FetchEntityMetatada` and `FetchEntitiesMetadata`) fail with the
retrieval error carrying that status code, for every parse operation and
every body content — the parse operation is never applied. -/
theorem fetch_status_ge_400 (R : Type) (f : XmlDoc → Except String R)
    (code : Nat) (body : Except String XmlDoc) (h : 400 ≤ code) :
    fetchMetadata R (HTTPResult.response code body) f =
        Except.error ("failed to fetch metadata: unexpected status code " ++ toString code) ∧
      FetchEntityMetatada (HTTPResult.response code body) =
        Except.error ("failed to fetch metadata: unexpected status code " ++ toString code) ∧
      FetchEntitiesMetadata (HTTPResult.response code body) =
        Except.error ("failed to fetch metadata: unexpected status code " ++ toString code) := by
  refine ⟨?_, ?_, ?_⟩ <;>
    simp [fetchMetadata, FetchEntityMetatada, FetchEntitiesMetadata, h]

/-- C3 witness: a 404 response is rejected with the code in the message. -/
theorem fetch_status_ge_400_witness :
    (400 ≤ 404) ∧
    FetchEntityMetatada (HTTPResult.response 404 (Except.error "ignored")) =
      Except.error "failed to fetch metadata: unexpected status code 404" := by
  have h := fetch_status_ge_400 EntityDescriptor ParseMetadata 404 (Except.error "ignored") (by decide)
  refine ⟨by decide, ?_⟩
  rw [h.2.1]
  rfl

/-- C4: the composed metadata has `ValidUntil = now + validDuration`, with
the configured (positive) registry duration and the fixed default constant
otherwise. -/
theorem metadata_validUntil (smp : ServiceMultipleProvider) (now : Int) :
    (Metadata smp now).ValidUntil =
      now + (if 0 < smp.MetadataValidDuration then smp.MetadataValidDuration
             else DefaultValidDuration) := by
  simp [Metadata]

/-- C5: the composed metadata declares exactly one SP role descriptor with
exactly two assertion-consumer endpoints — POST at index 1 and Artifact at
index 2, both at the assertion-consumer URL — and as many logout endpoints
as configured logout bindings. -/
theorem metadata_endpoints (smp : ServiceMultipleProvider) (now : Int) :
    ((Metadata smp now).SPSSODescriptors.map fun d => d.AssertionConsumerServices) =
      [[{ Binding := HTTPPostBinding, Location := smp.AcsURL.toString, Index := 1 },
        { Binding := HTTPArtifactBinding, Location := smp.AcsURL.toString, Index := 2 }]] ∧
    ((Metadata smp now).SPSSODescriptors.map
        fun d => d.SSODescriptor.SingleLogoutServices.length) =
      [smp.LogoutBindings.length] := by
  constructor <;> simp [Metadata]

/-- C6: with a leaf certificate configured the composed metadata carries one
encryption-use key descriptor whose single blob is the base64 encoding of
the leaf bytes followed by every intermediate, with the fixed four
encryption algorithm URIs, plus — exactly when the signature method is
non-empty — a signing-use descriptor with the same blob; with no
certificate the key-descriptor list is empty. -/
theorem metadata_keyDescriptors (smp : ServiceMultipleProvider) (now : Int) :
    ((Metadata smp now).SPSSODescriptors.map
        fun d => d.SSODescriptor.RoleDescriptor.KeyDescriptors) =
      [match smp.Certificate with
       | none => []
       | some cert =>
         { Use := "encryption",
           KeyInfo :=
             { X509Data :=
               { X509Certificates :=
                 [{ Data := base64Encode
                     (cert.Raw ++ (smp.Intermediates.map Certificate.Raw).flatten) }] } },
           EncryptionMethods :=
             [{ Algorithm := "http://www.w3.org/2001/04/xmlenc#aes128-cbc" },
              { Algorithm := "http://www.w3.org/2001/04/xmlenc#aes192-cbc" },
              { Algorithm := "http://www.w3.org/2001/04/xmlenc#aes256-cbc" },
              { Algorithm := "http://www.w3.org/2001/04/xmlenc#rsa-oaep-mgf1p" }] } ::
         (if smp.SignatureMethod = "" then []
          else
            [{ Use := "signing",
               KeyInfo :=
                 { X509Data :=
                   { X509Certificates :=
                     [{ Data := base64Encode
                         (cert.Raw ++ (smp.Intermediates.map Certificate.Raw).flatten) }] } },
               EncryptionMethods := [] }])] := by
  cases hc : smp.Certificate with
  | none => simp [Metadata, hc]
  | some cert =>
    by_cases hs : smp.SignatureMethod = ""
    · have : ¬ (0 < smp.SignatureMethod.length) := by
        rw [string_pos_ne]; simpa using hs
      simp [Metadata, hc, hs, this, foldl_append_raw]
    · have : 0 < smp.SignatureMethod.length := (string_pos_ne _).2 hs
      simp [Metadata, hc, hs, this, foldl_append_raw]

/-- C7: the composed metadata sets `AuthnRequestsSigned` exactly when the
signature method is non-empty — for every configuration, certificate or not
— and always sets `WantAssertionsSigned`. -/
theorem metadata_signing_flags (smp : ServiceMultipleProvider) (now : Int) :
    ((Metadata smp now).SPSSODescriptors.map fun d => d.AuthnRequestsSigned) =
      [some (smp.SignatureMethod != "")] ∧
    ((Metadata smp now).SPSSODescriptors.map fun d => d.WantAssertionsSigned) =
      [some true] := by
  constructor
  · simp only [Metadata, List.map]
    congr 1
    congr 1
    rw [Bool.eq_iff_iff]
    simp [string_pos_ne, bne_iff_ne]
  · simp [Metadata]

/-- C8: `GetServiceProvider` fails with the NotFound message naming the
requested identifier when it is absent from the registry mapping, and
returns exactly the stored tenant configuration when present. -/
theorem getServiceProvider_lookup (smp : ServiceMultipleProvider) (entityID : String) :
    (smp.Providers.lookup entityID = none →
      GetServiceProvider smp entityID =
        Except.error ("no service provider found for entityID " ++ entityID)) ∧
    (∀ sp, smp.Providers.lookup entityID = some sp →
      GetServiceProvider smp entityID = Except.ok sp) := by
  constructor
  · intro h; simp [GetServiceProvider, h]
  · intro sp h; simp [GetServiceProvider, h]

/-- C8 witness: in the sample registry, `urn:x` is absent and fails with a
message containing it, while `urn:a` returns the stored configuration. -/
theorem getServiceProvider_lookup_witness :
    GetServiceProvider smpFixture "urn:x" =
        Except.error "no service provider found for entityID urn:x" ∧
    GetServiceProvider smpFixture "urn:a" = Except.ok spFixture := by
  constructor
  · have h := (getServiceProvider_lookup smpFixture "urn:x").1 (by rfl)
    rw [h]
    rfl
  · exact (getServiceProvider_lookup smpFixture "urn:a").2 spFixture (by rfl)

/-- C9: for every relay state and parseable return URL,
`MakeWayfRedirectionRequest` returns the discovery base URL carrying
exactly the two query parameters in alphabetical key order — `entityID`
with the tenant identifier, then `return` with the return URL augmented by
the `rs` relay-state parameter — and fails with the ConfigError when the
IDP metadata name field is absent. -/
theorem makeWayf_redirect (smp : ServiceMultipleProvider) (meta : EntitiesDescriptor)
    (relayState returnUrl : String) (u : URL)
    (hm : smp.IDPMetadata = some meta)
    (hr : parseURL returnUrl = Except.ok u)
    (huq : u.rawQuery = "") :
    (∀ ws wu, meta.Name = some ws → parseURL ws = Except.ok wu → wu.rawQuery = "" →
      MakeWayfRedirectionRequest smp relayState returnUrl =
        some (Except.ok
          { scheme := wu.scheme, host := wu.host, path := wu.path,
            rawQuery := "entityID=" ++ queryEscape smp.EntityID ++ "&return=" ++
              queryEscape (URL.toString
                { scheme := u.scheme, host := u.host, path := u.path,
                  rawQuery := "rs=" ++ queryEscape relayState }) })) ∧
    (meta.Name = none →
      MakeWayfRedirectionRequest smp relayState returnUrl =
        some (Except.error "identity name is not set")) := by
  constructor
  · intro ws wu hn hw hwq
    simp only [MakeWayfRedirectionRequest, hr, hm, hn, hw, huq, hwq]
    rw [encode_add_rs, encode_return_entityID]
  · intro hn
    simp [MakeWayfRedirectionRequest, hr, hm, hn]

/-- C9 witness: the spec example — relay state `abc`, return URL
`https://sp.example/cb`, discovery base `https://idp.example/wayf` — yields
`entityID` then `return` with the doubly-encoded return URL. -/
theorem makeWayf_redirect_witness :
    MakeWayfRedirectionRequest smpFixture "abc" "https://sp.example/cb" =
      some (Except.ok
        { scheme := "https", host := "idp.example", path := "/wayf",
          rawQuery := "entityID=urn%3Atenant&return=https%3A%2F%2Fsp.example%2Fcb%3Frs%3Dabc" }) := by
  have h := (makeWayf_redirect smpFixture
      { Name := some "https://idp.example/wayf", EntityDescriptors := [] }
      "abc" "https://sp.example/cb"
      { scheme := "https", host := "sp.example", path := "/cb", rawQuery := "" }
      rfl (by rfl) rfl).1
      "https://idp.example/wayf"
      { scheme := "https", host := "idp.example", path := "/wayf", rawQuery := "" }
      rfl (by rfl) rfl
  rw [h]
  rfl

/-- C10: `MakeWayfRedirectionRequest` dereferences `IDPMetadata` before the
nil-`Name` check: with `IDPMetadata` nil and a parseable return URL the
outcome is the undefined nil-pointer dereference (`none`), not an error
result; with `IDPMetadata` non-nil the operation always produces a result. -/
theorem makeWayf_nil_idp (smp : ServiceMultipleProvider)
    (relayState returnUrl : String) (u : URL)
    (hr : parseURL returnUrl = Except.ok u) :
    (smp.IDPMetadata = none →
      MakeWayfRedirectionRequest smp relayState returnUrl = none) ∧
    (smp.IDPMetadata ≠ none →
      (MakeWayfRedirectionRequest smp relayState returnUrl).isSome = true) := by
  constructor
  · intro h
    simp [MakeWayfRedirectionRequest, hr, h]
  · intro h
    match hm : smp.IDPMetadata with
    | none => exact absurd hm h
    | some meta =>
      cases hn : meta.Name with
      | none => simp [MakeWayfRedirectionRequest, hr, hm, hn]
      | some ws =>
        cases hw : parseURL ws <;>
          simp [MakeWayfRedirectionRequest, hr, hm, hn, hw]

/-- C10 witness: the sample registry without IDP metadata reaches the
undefined dereference on a parseable return URL. -/
theorem makeWayf_nil_idp_witness :
    MakeWayfRedirectionRequest smpNoIdp "abc" "https://sp.example/cb" = none := by
  exact (makeWayf_nil_idp smpNoIdp "abc" "https://sp.example/cb"
    { scheme := "https", host := "sp.example", path := "/cb", rawQuery := "" } (by rfl)).1 rfl
